import Mathlib

/-!
Verification of the documentation-generation scripts
`scripts/update_readme.py` and `scripts/generate_diagrams.py`.

Text is modelled as `List Char` (a Python `str` is a sequence of unicode
code points).  The generic string operations the scripts rely on —
`str.split(marker)[0]`, `str.rstrip()`, `str.startswith`, `str.replace`,
`"\n".join` — are embedded first, followed by the data model for parsed
HCL/YAML values and the extraction / rendering / section-replacement
functions of the two scripts.
-/

set_option autoImplicit false

namespace Gke

/-- Propositional form of Python `l.startswith(p)`: `p` followed by some
tail equals `l`. -/
def pre (p l : List Char) : Prop := ∃ t, p ++ t = l

/-- Executable form of Python `l.startswith(p)`. -/
def startsWith : List Char → List Char → Bool
  | [], _ => true
  | _ :: _, [] => false
  | a :: p, b :: l => a = b && startsWith p l

theorem startsWith_iff : ∀ p l : List Char, startsWith p l = true ↔ pre p l := by
  intro p
  induction p with
  | nil => intro l; simp [startsWith, pre]
  | cons a p ih =>
    intro l
    cases l with
    | nil =>
      simp only [startsWith, pre]
      constructor
      · intro h; cases h
      · rintro ⟨t, ht⟩; cases ht
    | cons b l =>
      simp only [startsWith, Bool.and_eq_true, decide_eq_true_eq, ih l, pre]
      constructor
      · rintro ⟨rfl, t, rfl⟩; exact ⟨t, rfl⟩
      · rintro ⟨t, ht⟩
        injection ht with h1 h2
        exact ⟨h1, t, h2⟩

theorem pre_trans {a b c : List Char} (h1 : pre a b) (h2 : pre b c) : pre a c := by
  obtain ⟨t1, rfl⟩ := h1
  obtain ⟨t2, rfl⟩ := h2
  exact ⟨t1 ++ t2, by simp⟩

theorem pre_cons {a b : Char} {x l : List Char} :
    pre (a :: x) (b :: l) ↔ a = b ∧ pre x l := by
  constructor
  · rintro ⟨t, ht⟩
    injection ht with h1 h2
    exact ⟨h1, t, h2⟩
  · rintro ⟨rfl, t, rfl⟩
    exact ⟨t, rfl⟩

theorem pre_of_cons {a : Char} {x l : List Char} (h : pre x l) :
    pre (a :: x) (a :: l) := pre_cons.mpr ⟨rfl, h⟩

theorem pre_nil_of {m : List Char} (h : pre m []) : m = [] := by
  obtain ⟨t, ht⟩ := h
  cases m with
  | nil => rfl
  | cons a p => cases ht

/-- A list that starts with `m` inside `A ++ B`, fitting within `A`,
starts with `m` already in `A`. -/
theorem pre_of_append_le : ∀ (m A B : List Char),
    pre m (A ++ B) → m.length ≤ A.length → pre m A := by
  intro m
  induction m with
  | nil => intro A B _ _; exact ⟨A, rfl⟩
  | cons a m ih =>
    intro A B h hlen
    cases A with
    | nil => simp at hlen
    | cons c A' =>
      rw [List.cons_append] at h
      obtain ⟨rfl, h2⟩ := pre_cons.mp h
      simp only [List.length_cons, Nat.succ_le_succ_iff] at hlen
      exact pre_of_cons (ih A' B h2 hlen)

/-- A list that starts with `m` inside `A ++ B`, where `m` is at least as
long as `A`, decomposes as `m = A ++ m'` with `m'` a start of `B`. -/
theorem pre_split_ge : ∀ (A m B : List Char),
    pre m (A ++ B) → A.length ≤ m.length → ∃ m2, m = A ++ m2 ∧ pre m2 B := by
  intro A
  induction A with
  | nil => intro m B h _; exact ⟨m, rfl, h⟩
  | cons c A' ih =>
    intro m B h hlen
    cases m with
    | nil => simp at hlen
    | cons a m' =>
      rw [List.cons_append] at h
      obtain ⟨rfl, h2⟩ := pre_cons.mp h
      simp only [List.length_cons, Nat.succ_le_succ_iff] at hlen
      obtain ⟨m2, rfl, hm2⟩ := ih m' B h2 hlen
      exact ⟨m2, rfl, hm2⟩

/-- `m` never occurs as a substring of `l` (no suffix of `l` starts with `m`). -/
def noOccur (m l : List Char) : Prop := ∀ u s : List Char, u ++ s = l → ¬ pre m s

theorem noOccur_append_drop {m q w : List Char} (h : noOccur m (q ++ w)) :
    noOccur m q := by
  intro u s hus hp
  obtain ⟨t, rfl⟩ := hp
  exact h u (m ++ t ++ w) (by rw [← hus]; simp) ⟨t ++ w, by simp⟩

theorem noOccur_cons {m : List Char} {c : Char} {l : List Char}
    (h : noOccur m (c :: l)) : noOccur m l := by
  intro u s hus hp
  exact h (c :: u) s (by rw [List.cons_append, hus]) hp

/-- Python `content.split(marker)[0]`: everything strictly before the first
occurrence of `m` in `l`; the whole of `l` when `m` does not occur. -/
def splitFirst (m : List Char) : List Char → List Char
  | [] => []
  | c :: cs => if startsWith m (c :: cs) = true then [] else c :: splitFirst m cs

theorem splitFirst_pre (m : List Char) : ∀ l, pre (splitFirst m l) l := by
  intro l
  induction l with
  | nil => exact ⟨[], rfl⟩
  | cons c cs ih =>
    by_cases h : startsWith m (c :: cs) = true
    · simp [splitFirst, h]
      exact ⟨c :: cs, rfl⟩
    · simp [splitFirst, h]
      exact pre_of_cons ih

theorem splitFirst_noOccur {m : List Char} (hm : m ≠ []) :
    ∀ l, noOccur m (splitFirst m l) := by
  intro l
  induction l with
  | nil =>
    intro u s hus hp
    simp only [splitFirst, List.append_eq_nil] at hus
    exact hm (pre_nil_of (hus.2 ▸ hp))
  | cons c cs ih =>
    by_cases h : startsWith m (c :: cs) = true
    · simp only [splitFirst, h, if_true]
      intro u s hus hp
      rw [List.append_eq_nil] at hus
      exact hm (pre_nil_of (hus.2 ▸ hp))
    · simp only [splitFirst, h, if_false]
      intro u s hus hp
      cases u with
      | nil =>
        simp only [List.nil_append] at hus
        subst hus
        have hcs : pre (c :: splitFirst m cs) (c :: cs) :=
          pre_of_cons (splitFirst_pre m cs)
        exact h ((startsWith_iff m (c :: cs)).mpr (pre_trans hp hcs))
      | cons c' u' =>
        injection hus with h1 h2
        exact ih u' s h2 hp

/-- Splitting at the marker of a well-formed generated document: the marker
contains no newline, so the first occurrence in
`R ++ "\n\n" ++ m ++ B` is the explicit one, provided `m` does not occur
in the preserved part `R`. -/
theorem splitFirst_append {m : List Char} (hm : m ≠ []) (hnl : '\n' ∉ m) :
    ∀ (R B : List Char), noOccur m R →
      splitFirst m ((R ++ ['\n', '\n']) ++ (m ++ B)) = R ++ ['\n', '\n'] := by
  intro R
  induction R with
  | nil =>
    intro B _
    obtain ⟨a, m', rfl⟩ : ∃ a m', m = a :: m' := by
      cases m with
      | nil => exact absurd rfl hm
      | cons a m' => exact ⟨a, m', rfl⟩
    have ha : a ≠ '\n' := fun h => hnl (h ▸ List.mem_cons_self a m')
    have h1 : startsWith (a :: m') ('\n' :: '\n' :: a :: (m' ++ B)) = false := by
      simp [startsWith, ha]
    have h2 : startsWith (a :: m') ('\n' :: a :: (m' ++ B)) = false := by
      simp [startsWith, ha]
    have h3 : startsWith (a :: m') (a :: (m' ++ B)) = true := by
      exact (startsWith_iff _ _).mpr ⟨B, by simp⟩
    simp [splitFirst, h1, h2, h3]
  | cons r R' ih =>
    intro B hno
    have hcond : startsWith m ((r :: R') ++ (['\n', '\n'] ++ (m ++ B))) = false := by
      rw [Bool.eq_false_iff]
      intro hsw
      have hp : pre m ((r :: R') ++ (['\n', '\n'] ++ (m ++ B))) :=
        (startsWith_iff _ _).mp hsw
      rcases Nat.le_total m.length (r :: R').length with hle | hge
      · exact hno [] (r :: R') rfl (pre_of_append_le m (r :: R') _ hp hle)
      · obtain ⟨m2, rfl, hm2⟩ := pre_split_ge (r :: R') m _ hp hge
        cases m2 with
        | nil =>
          exact hno [] (r :: R') rfl ⟨[], by simp⟩
        | cons b m2' =>
          obtain ⟨rfl, _⟩ := pre_cons.mp hm2
          exact hnl (List.mem_append_right _ (List.mem_cons_self '\n' m2'))
    have heq : (((r :: R') ++ ['\n', '\n']) ++ (m ++ B)) =
        r :: ((R' ++ ['\n', '\n']) ++ (m ++ B)) := by simp
    rw [heq]
    have hcond' : startsWith m (r :: ((R' ++ ['\n', '\n']) ++ (m ++ B))) = false := by
      have : (r :: R') ++ (['\n', '\n'] ++ (m ++ B)) =
          r :: ((R' ++ ['\n', '\n']) ++ (m ++ B)) := by simp
      rw [← this]; exact hcond
    simp only [splitFirst, hcond', if_false]
    rw [ih B (noOccur_cons hno)]
    simp

/-- The characters Python's `str.isspace` recognises (and hence the
characters `str.rstrip()` removes). -/
def wsChars : List Char :=
  ['\t', '\n', '\x0b', '\x0c', '\r', '\x1c', '\x1d', '\x1e', '\x1f', ' ',
   '\x85', '\xa0', ' ', ' ', ' ', ' ', ' ', ' ',
   ' ', ' ', ' ', ' ', ' ', ' ', ' ',
   ' ', ' ', ' ', '　']

def isSpace (c : Char) : Bool := c ∈ wsChars

/-- Python `s.rstrip()`: remove all trailing whitespace characters. -/
def rstrip : List Char → List Char
  | [] => []
  | c :: cs =>
    match rstrip cs with
    | [] => if isSpace c = true then [] else [c]
    | r => c :: r

theorem rstrip_all_spaces : ∀ w : List Char, (∀ c ∈ w, isSpace c = true) →
    rstrip w = [] := by
  intro w
  induction w with
  | nil => intro _; rfl
  | cons c cs ih =>
    intro h
    have hc : isSpace c = true := h c (List.mem_cons_self c cs)
    have hcs : rstrip cs = [] := ih fun x hx => h x (List.mem_cons_of_mem c hx)
    simp [rstrip, hcs, hc]

theorem rstrip_append_ws : ∀ (l w : List Char), (∀ c ∈ w, isSpace c = true) →
    rstrip (l ++ w) = rstrip l := by
  intro l w hw
  induction l with
  | nil => simpa using rstrip_all_spaces w hw
  | cons c cs ih =>
    show rstrip (c :: (cs ++ w)) = rstrip (c :: cs)
    simp only [rstrip, ih]

theorem rstrip_cons_pos (c : Char) (cs : List Char) (r : Char) (rs : List Char)
    (hcs : rstrip cs = r :: rs) : rstrip (c :: cs) = c :: r :: rs := by
  simp [rstrip, hcs]

theorem rstrip_idem : ∀ l : List Char, rstrip (rstrip l) = rstrip l := by
  intro l
  induction l with
  | nil => rfl
  | cons c cs ih =>
    cases hcs : rstrip cs with
    | nil =>
      by_cases hc : isSpace c = true
      · simp [rstrip, hcs, hc]
      · simp [rstrip, hcs, hc]
    | cons r rs =>
      rw [rstrip_cons_pos c cs r rs hcs]
      have hrr : rstrip (r :: rs) = r :: rs := by rw [← hcs, ih, hcs]
      exact rstrip_cons_pos c (r :: rs) r rs hrr

theorem rstrip_decomp : ∀ l : List Char,
    ∃ w, (∀ c ∈ w, isSpace c = true) ∧ rstrip l ++ w = l := by
  intro l
  induction l with
  | nil => exact ⟨[], by simp, rfl⟩
  | cons c cs ih =>
    obtain ⟨w, hw, hdec⟩ := ih
    cases hcs : rstrip cs with
    | nil =>
      rw [hcs] at hdec
      simp only [List.nil_append] at hdec
      by_cases hc : isSpace c = true
      · refine ⟨c :: w, ?_, ?_⟩
        · intro x hx
          rcases List.mem_cons.mp hx with rfl | hx'
          · exact hc
          · exact hw x hx'
        · have hz : rstrip (c :: cs) = [] := by simp [rstrip, hcs, hc]
          rw [hz, List.nil_append, hdec]
      · refine ⟨w, hw, ?_⟩
        have hz : rstrip (c :: cs) = [c] := by simp [rstrip, hcs, hc]
        rw [hz]
        simp [hdec]
    | cons r rs =>
      refine ⟨w, hw, ?_⟩
      rw [rstrip_cons_pos c cs r rs hcs, ← hcs, List.cons_append, hdec]

/-- Python `"\n".join(lines)` over a list of lines. -/
def joinNL : List (List Char) → List Char
  | [] => []
  | [l] => l
  | l :: ls => l ++ '\n' :: joinNL ls

theorem joinNL_cons {l : List Char} {ls : List (List Char)} (h : ls ≠ []) :
    joinNL (l :: ls) = l ++ '\n' :: joinNL ls := by
  cases ls with
  | nil => exact absurd rfl h
  | cons a as => rfl

/-- Python `s.replace(a, b)` for single-character `a` and `b`. -/
def replaceChar (a b : Char) (l : List Char) : List Char :=
  l.map fun c => if c = a then b else c

theorem mem_replaceChar {c a b : Char} {l : List Char}
    (h : c ∈ replaceChar a b l) : c = b ∨ c ∈ l := by
  obtain ⟨x, hx, hfx⟩ := List.mem_map.mp h
  by_cases hxa : x = a
  · left; rw [← hfx, hxa]; simp
  · right; rw [← hfx]; simp [hxa]; exact hx

theorem not_mem_replaceChar_self {a b : Char} (hab : a ≠ b) (l : List Char) :
    a ∉ replaceChar a b l := by
  intro h
  obtain ⟨x, _, hfx⟩ := List.mem_map.mp h
  by_cases hxa : x = a
  · rw [hxa] at hfx; simp at hfx; exact hab hfx.symm
  · simp only [if_neg hxa] at hfx
    exact hxa hfx

/-- Python `m in l` for strings: `m` occurs somewhere in `l`. -/
def containsSeq (m : List Char) : List Char → Bool
  | [] => startsWith m []
  | c :: cs => startsWith m (c :: cs) || containsSeq m cs

theorem splitFirst_of_not_contains {m : List Char} :
    ∀ l, containsSeq m l = false → splitFirst m l = l := by
  intro l
  induction l with
  | nil => intro _; rfl
  | cons c cs ih =>
    intro h
    simp only [containsSeq, Bool.or_eq_false_iff] at h
    simp [splitFirst, h.1, ih h.2]

/-!
### The idempotent section replacer

`ProjectAnalyzer.update_readme` (`scripts/update_readme.py`, lines 170-204)
and `InfrastructureDiagramGenerator.update_readme`
(`scripts/generate_diagrams.py`, lines 154-223) share the same
section-replacement logic:

```
if "<!-- BEGIN AUTO-GENERATED -->" in content:
    content = content.split("<!-- BEGIN AUTO-GENERATED -->")[0]
new_content = content.rstrip() + "\n\n"
new_content += "<!-- BEGIN AUTO-GENERATED -->\n"
new_content += "> ... generated ... \n"
new_content += f"> Last updated: \x7bts\x7d\n\n"
new_content += <rendered sections>
```
-/

def markerL : List Char := "<!-- BEGIN AUTO-GENERATED -->".toList

def warnL : List Char :=
  "> ⚠️ This section is automatically generated. Do not modify manually.".toList

def lastUpdatedL : List Char := "> Last updated: ".toList

/-- The fallback content when the README is absent
(`update_readme.py` line 179, `generate_diagrams.py` line 166). -/
def defaultTitle : List Char := "# GKE Cluster with Terraform\n\n".toList

/-- `content.split("<!-- BEGIN AUTO-GENERATED -->")[0]` when the marker is
present, `content` itself otherwise (the `in`-guarded split of both
scripts collapses to this). -/
def beforeMarker (content : List Char) : List Char := splitFirst markerL content

/-- The sentinel header block: marker line, warning line, timestamp line,
blank line. -/
def headerBlock (ts : List Char) : List Char :=
  markerL ++ ['\n'] ++ warnL ++ ['\n'] ++ lastUpdatedL ++ ts ++ ['\n', '\n']

/-- The full content written by the section replacer, as a function of the
prior README content, the timestamp string, and the concatenation of the
rendered sections. -/
def newContent (prior ts secs : List Char) : List Char :=
  rstrip (beforeMarker prior) ++ ['\n', '\n'] ++ headerBlock ts ++ secs

theorem markerL_ne_nil : markerL ≠ [] := by decide

theorem newline_not_mem_markerL : '\n' ∉ markerL := by decide

theorem noOccur_rstrip_beforeMarker (prior : List Char) :
    noOccur markerL (rstrip (beforeMarker prior)) := by
  have h1 : noOccur markerL (beforeMarker prior) :=
    splitFirst_noOccur markerL_ne_nil prior
  obtain ⟨w, _, hdec⟩ := rstrip_decomp (beforeMarker prior)
  rw [← hdec] at h1
  exact noOccur_append_drop h1

theorem splitFirst_append_cons {m : List Char} (hm : m ≠ []) (hnl : '\n' ∉ m)
    (R B : List Char) (hno : noOccur m R) :
    splitFirst m (R ++ '\n' :: '\n' :: (m ++ B)) = R ++ ['\n', '\n'] := by
  have h := splitFirst_append hm hnl R B hno
  simpa using h

theorem beforeMarker_newContent (prior ts secs : List Char) :
    beforeMarker (newContent prior ts secs) =
      rstrip (beforeMarker prior) ++ ['\n', '\n'] := by
  have hshape : newContent prior ts secs =
      rstrip (beforeMarker prior) ++ '\n' :: '\n' ::
        (markerL ++ ('\n' :: (warnL ++ '\n' ::
          (lastUpdatedL ++ (ts ++ '\n' :: '\n' :: secs))))) := by
    simp [newContent, headerBlock]
  rw [beforeMarker, hshape]
  exact splitFirst_append_cons markerL_ne_nil newline_not_mem_markerL _ _
    (noOccur_rstrip_beforeMarker prior)

theorem rstrip_beforeMarker_newContent (prior ts secs : List Char) :
    rstrip (beforeMarker (newContent prior ts secs)) =
      rstrip (beforeMarker prior) := by
  rw [beforeMarker_newContent]
  rw [rstrip_append_ws _ ['\n', '\n'] (by decide)]
  exact rstrip_idem _

/-- Claim C1: the content written by the section replacer is exactly the
prior content's part before the first sentinel-marker occurrence, trimmed
of trailing whitespace, then two newlines, then the sentinel header block
(marker line, warning line, timestamp line, blank line), then the rendered
sections; the output starts with that trimmed user-authored part followed by
two newlines; and when the marker is absent the part taken is the whole
prior content. -/
theorem c1_user_content_preserved (prior ts secs : List Char) :
    newContent prior ts secs =
      rstrip (beforeMarker prior) ++ ['\n', '\n'] ++
        (markerL ++ ['\n'] ++ warnL ++ ['\n'] ++
          lastUpdatedL ++ ts ++ ['\n', '\n']) ++ secs ∧
    pre (rstrip (beforeMarker prior) ++ ['\n', '\n']) (newContent prior ts secs) ∧
    (containsSeq markerL prior = false → beforeMarker prior = prior) := by
  refine ⟨rfl, ?_, fun h => splitFirst_of_not_contains prior h⟩
  exact ⟨headerBlock ts ++ secs, by simp [newContent]⟩

/-- Witness for C1 at a concrete prior README without the marker. -/
theorem c1_user_content_preserved_witness :
    beforeMarker ("# My notes\n\nhand written\n".toList) =
      "# My notes\n\nhand written\n".toList ∧
    pre ("# My notes\n\nhand written".toList ++ ['\n', '\n'])
      (newContent ("# My notes\n\nhand written\n".toList)
        ("2024-01-01 00:00:00".toList) ("SECTIONS".toList)) := by
  have h := c1_user_content_preserved ("# My notes\n\nhand written\n".toList)
    ("2024-01-01 00:00:00".toList) ("SECTIONS".toList)
  refine ⟨h.2.2 (by decide), ?_⟩
  have hr : rstrip (beforeMarker ("# My notes\n\nhand written\n".toList)) =
      "# My notes\n\nhand written".toList := by decide
  rw [← hr]
  exact h.2.1

/-- Claim C2: applying the section replacer to its own previous output with
the same rendered sections reproduces the previous content up to the
timestamp: with a fresh timestamp the result is exactly the first-run result
with the new timestamp substituted, and with the same timestamp the content
is byte-identical. -/
theorem c2_regeneration_idempotent (prior ts1 ts2 secs : List Char) :
    newContent (newContent prior ts1 secs) ts2 secs = newContent prior ts2 secs ∧
    newContent (newContent prior ts1 secs) ts1 secs = newContent prior ts1 secs := by
  constructor
  · show rstrip (beforeMarker (newContent prior ts1 secs)) ++ ['\n', '\n'] ++
      headerBlock ts2 ++ secs = newContent prior ts2 secs
    rw [rstrip_beforeMarker_newContent]
    rfl
  · show rstrip (beforeMarker (newContent prior ts1 secs)) ++ ['\n', '\n'] ++
      headerBlock ts1 ++ secs = newContent prior ts1 secs
    rw [rstrip_beforeMarker_newContent]
    rfl

/-!
### Reading the prior README (C7)

Both scripts read the README with
```
try:
    with open(readme_path, 'r') as f:
        content = f.read()
except FileNotFoundError:
    content = "# GKE Cluster with Terraform\n\n"
```
(`update_readme.py` lines 174-179, `generate_diagrams.py` lines 161-166).
Only `FileNotFoundError` is caught; any other read failure (permission
denied, decode error, path is a directory, ...) propagates.
-/

/-- Outcome of attempting to read the prior README file. -/
inductive ReadResult where
  | content : List Char → ReadResult
  | missing : ReadResult
  | unreadable : ReadResult

/-- The read step of both scripts: the file's text on success, the default
title on `FileNotFoundError`, and a propagated exception on any other
failure. -/
def readPrior : ReadResult → Except Unit (List Char)
  | ReadResult.content c => Except.ok c
  | ReadResult.missing => Except.ok defaultTitle
  | ReadResult.unreadable => Except.error ()

/-- Counterexample to claim C7 as stated: a prior README that is unreadable
for a reason other than absence (e.g. a permission error) makes the read
step propagate the exception instead of continuing with the default
title. -/
theorem c7_counterexample_unreadable_propagates :
    readPrior ReadResult.unreadable = Except.error () := rfl

/-- Claim C7 (amended): only when the prior README is missing
(`FileNotFoundError`) does the read step continue without an exception,
using the default title `# GKE Cluster with Terraform` followed by a blank
line as the prior content, whose preserved part in the output is that title
followed by two newlines; any other read failure propagates. -/
theorem c7_missing_uses_default_title :
    readPrior ReadResult.missing = Except.ok defaultTitle ∧
    readPrior ReadResult.unreadable = Except.error () ∧
    rstrip (beforeMarker defaultTitle) ++ ['\n', '\n'] =
      "# GKE Cluster with Terraform\n\n".toList := by
  refine ⟨rfl, rfl, by decide⟩

/-!
### Parsed configuration values

`hcl2.loads` and `yaml.safe_load_all` hand the scripts plain Python values:
strings, dicts (insertion-ordered), lists and `None`.  A dict is modelled as
an association list preserving insertion order, so Python's
`list(d.keys())[0]` is the first key of the association list.  Operations
that can raise in Python (`.keys()` on a non-dict, indexing an empty key
list, `.get` on a non-dict) are modelled in `Except Unit`.
-/

inductive Val where
  | str : List Char → Val
  | dict : List (List Char × Val) → Val
  | list : List Val → Val
  | null : Val

/-- Python `d[k]` / `d.get(k)` on an insertion-ordered dict. -/
def lookup (k : List Char) : List (List Char × Val) → Option Val
  | [] => none
  | (k', v) :: kvs => if k' = k then some v else lookup k kvs

/-- Python `for x in v`: iterating a dict yields its keys (as strings), a
list yields its elements, a string yields its characters as one-character
strings; iterating `None` raises `TypeError`. -/
def pyIter : Val → Except Unit (List Val)
  | Val.dict kvs => Except.ok (kvs.map fun kv => Val.str kv.1)
  | Val.list vs => Except.ok vs
  | Val.str s => Except.ok (s.map fun c => Val.str [c])
  | Val.null => Except.error ()

/-- Python `list(v.keys())[0]`: raises `AttributeError` on a non-dict and
`IndexError` on an empty dict. -/
def firstKeyE : Val → Except Unit (List Char)
  | Val.dict [] => Except.error ()
  | Val.dict ((k, _) :: _) => Except.ok k
  | _ => Except.error ()

/-- Python `v.get(k, d)`: raises `AttributeError` on a non-dict. -/
def pyGet (v : Val) (k : List Char) (d : Val) : Except Unit Val :=
  match v with
  | Val.dict kvs => Except.ok ((lookup k kvs).getD d)
  | _ => Except.error ()

def resourceKey : List Char := "resource".toList
def variableKey : List Char := "variable".toList
def typeKey : List Char := "type".toList
def anyL : List Char := "any".toList

/-!
### Resource extraction (C3, C6)

`update_readme.py` lines 89-103 and `generate_diagrams.py` lines 43-62
extract resource identifiers `<type>.<instance_name>` from a parsed config,
accepting `config['resource']` both as a dict and as a list of single-key
dicts.  The embedding below follows `generate_diagrams.py` (bare
identifiers); `update_readme.py` only differs in wrapping each identifier
in a `- ` + backticks bullet.
-/

/-- Inner loop of the dict-shaped branch:
`for instance in instances: ... f"{ty}.{list(instance.keys())[0]}"`. -/
def instIds (ty : List Char) : List Val → Except Unit (List (List Char))
  | [] => Except.ok []
  | v :: vs =>
    match firstKeyE v with
    | Except.error e => Except.error e
    | Except.ok k =>
      match instIds ty vs with
      | Except.error e => Except.error e
      | Except.ok more => Except.ok ((ty ++ '.' :: k) :: more)

/-- Inner loop of the list-shaped branch: instances that are not dicts are
skipped by the `isinstance(instance, dict)` guard; an empty instance dict
still raises `IndexError` on `list(instance.keys())[0]`. -/
def instIdsChecked (ty : List Char) : List Val → Except Unit (List (List Char))
  | [] => Except.ok []
  | Val.dict [] :: _ => Except.error ()
  | Val.dict ((k, _) :: _) :: vs =>
    match instIdsChecked ty vs with
    | Except.error e => Except.error e
    | Except.ok more => Except.ok ((ty ++ '.' :: k) :: more)
  | _ :: vs => instIdsChecked ty vs

/-- `config['resource']` as a dict:
`for resource_type, instances in config['resource'].items(): for instance in instances: ...`. -/
def resDictBranch : List (List Char × Val) → Except Unit (List (List Char))
  | [] => Except.ok []
  | (ty, iv) :: rest =>
    match pyIter iv with
    | Except.error e => Except.error e
    | Except.ok insts =>
      match instIds ty insts with
      | Except.error e => Except.error e
      | Except.ok ids =>
        match resDictBranch rest with
        | Except.error e => Except.error e
        | Except.ok more => Except.ok (ids ++ more)

/-- `config['resource']` as a list of single-key dicts; a non-dict item and
non-list instances are skipped by `isinstance` guards, an empty item dict
raises `IndexError`. -/
def resListBranch : List Val → Except Unit (List (List Char))
  | [] => Except.ok []
  | Val.dict [] :: _ => Except.error ()
  | Val.dict ((ty, iv) :: _) :: vs =>
    match iv with
    | Val.list insts =>
      match instIdsChecked ty insts with
      | Except.error e => Except.error e
      | Except.ok ids =>
        match resListBranch vs with
        | Except.error e => Except.error e
        | Except.ok more => Except.ok (ids ++ more)
    | _ => resListBranch vs
  | _ :: vs => resListBranch vs

/-- Resource extraction from one parsed config file
(`generate_diagrams.py` lines 43-62; `update_readme.py` lines 89-103). -/
def extractResources (config : List (List Char × Val)) :
    Except Unit (List (List Char)) :=
  match lookup resourceKey config with
  | none => Except.ok []
  | some (Val.dict kvs) => resDictBranch kvs
  | some (Val.list vs) => resListBranch vs
  | some _ => Except.ok []

/-- The first key of an instance dict (its declared name). -/
def firstKeyD : List (List Char × Val) → List Char
  | [] => []
  | (k, _) :: _ => k

/-- The identifier the scripts form for one instance of resource type
`ty`. -/
def resId (ty : List Char) (inst : List (List Char × Val)) : List Char :=
  ty ++ '.' :: firstKeyD inst

theorem instIds_map (ty : List Char) :
    ∀ insts : List (List (List Char × Val)), (∀ i ∈ insts, i ≠ []) →
      instIds ty (insts.map Val.dict) = Except.ok (insts.map (resId ty)) := by
  intro insts
  induction insts with
  | nil => intro _; rfl
  | cons i is ih =>
    intro h
    have hi : i ≠ [] := h i (List.mem_cons_self i is)
    obtain ⟨⟨k, v⟩, i', rfl⟩ : ∃ kv i', i = kv :: i' := by
      cases i with
      | nil => exact absurd rfl hi
      | cons kv i' => exact ⟨kv, i', rfl⟩
    have := ih fun x hx => h x (List.mem_cons_of_mem _ hx)
    simp [instIds, firstKeyE, this, resId, firstKeyD]

theorem instIdsChecked_map (ty : List Char) :
    ∀ insts : List (List (List Char × Val)), (∀ i ∈ insts, i ≠ []) →
      instIdsChecked ty (insts.map Val.dict) = Except.ok (insts.map (resId ty)) := by
  intro insts
  induction insts with
  | nil => intro _; rfl
  | cons i is ih =>
    intro h
    have hi : i ≠ [] := h i (List.mem_cons_self i is)
    obtain ⟨⟨k, v⟩, i', rfl⟩ : ∃ kv i', i = kv :: i' := by
      cases i with
      | nil => exact absurd rfl hi
      | cons kv i' => exact ⟨kv, i', rfl⟩
    have := ih fun x hx => h x (List.mem_cons_of_mem _ hx)
    simp [instIdsChecked, this, resId, firstKeyD]

/-- Claim C3: the resource extractor accepts `config['resource']` both as a
single mapping (resource type to its instance list) and as a sequence of
single-key mappings, and in both shapes each instance yields the identifier
`<type>.<first key of the instance body>`, one per instance in declaration
order. -/
theorem c3_resource_identifiers (ty : List Char)
    (insts : List (List (List Char × Val))) (h : ∀ i ∈ insts, i ≠ []) :
    extractResources
        [(resourceKey, Val.dict [(ty, Val.list (insts.map Val.dict))])] =
      Except.ok (insts.map (resId ty)) ∧
    extractResources
        [(resourceKey, Val.list [Val.dict [(ty, Val.list (insts.map Val.dict))]])] =
      Except.ok (insts.map (resId ty)) := by
  constructor
  · simp [extractResources, lookup, resDictBranch, pyIter, instIds_map ty insts h]
  · simp [extractResources, lookup, resListBranch, instIdsChecked_map ty insts h]

/-- Witness for C3: a resource block of type `t` with instances keyed `a`
then `b` yields exactly `["t.a", "t.b"]` in both shapes. -/
theorem c3_resource_identifiers_witness :
    extractResources
        [(resourceKey, Val.dict [("t".toList,
          Val.list [Val.dict [("a".toList, Val.null)],
                    Val.dict [("b".toList, Val.null)]])])] =
      Except.ok ["t.a".toList, "t.b".toList] ∧
    extractResources
        [(resourceKey, Val.list [Val.dict [("t".toList,
          Val.list [Val.dict [("a".toList, Val.null)],
                    Val.dict [("b".toList, Val.null)]])]])] =
      Except.ok ["t.a".toList, "t.b".toList] := by
  have h := c3_resource_identifiers ("t".toList)
    [[("a".toList, Val.null)], [("b".toList, Val.null)]]
    (by intro i hi
        simp only [List.mem_cons, List.not_mem_nil, or_false] at hi
        rcases hi with rfl | rfl
        · exact List.cons_ne_nil _ _
        · exact List.cons_ne_nil _ _)
  exact ⟨h.1, h.2⟩

/-!
### Malformed-file tolerance (C6)

`analyze_terraform_file` (`update_readme.py` lines 19-28) and
`parse_terraform_file` (`generate_diagrams.py` lines 17-24) wrap the parse
in `try/except Exception`: a file whose parse raises contributes the empty
mapping `{}` and a printed warning, and the caller keeps going over the
remaining files of the module.
-/

/-- A source file of one module: either it parses to a config, or its parse
raises. -/
inductive TfFile where
  | parsed : List (List Char × Val) → TfFile
  | malformed : TfFile

/-- The guarded parse: the parsed config and whether a warning was printed.
A malformed file yields the empty mapping plus a warning. -/
def parseTfFile : TfFile → List (List Char × Val) × Bool
  | TfFile.parsed cfg => (cfg, false)
  | TfFile.malformed => ([], true)

/-- Per-module resource accumulation over the module's files
(`generate_diagrams.py` lines 38-62): each file is parsed with the guard
and its extracted resources are appended in order. -/
def moduleResources : List TfFile → Except Unit (List (List Char))
  | [] => Except.ok []
  | f :: fs =>
    match extractResources (parseTfFile f).1 with
    | Except.error e => Except.error e
    | Except.ok ids =>
      match moduleResources fs with
      | Except.error e => Except.error e
      | Except.ok more => Except.ok (ids ++ more)

/-- Claim C6: a malformed file contributes the empty mapping (so no
resources) and a warning, and the module's extracted resource list is
exactly the well-formed file's resources, whichever order the two files are
visited in; the run completes without raising. -/
theorem c6_malformed_file_tolerated (cfg : List (List Char × Val))
    (rs : List (List Char)) (h : extractResources cfg = Except.ok rs) :
    moduleResources [TfFile.parsed cfg, TfFile.malformed] = Except.ok rs ∧
    moduleResources [TfFile.malformed, TfFile.parsed cfg] = Except.ok rs ∧
    (parseTfFile TfFile.malformed).1 = [] ∧
    (parseTfFile TfFile.malformed).2 = true := by
  have hnil : extractResources [] = Except.ok [] := rfl
  refine ⟨?_, ?_, rfl, rfl⟩
  · simp [moduleResources, parseTfFile, h, hnil]
  · simp [moduleResources, parseTfFile, h, hnil]

/-- Witness for C6 at a module holding one well-formed file declaring
`resource "t" "a"` and one malformed file. -/
theorem c6_malformed_file_tolerated_witness :
    extractResources
        [(resourceKey, Val.dict [("t".toList, Val.list [Val.dict [("a".toList, Val.null)]])])] =
      Except.ok ["t.a".toList] ∧
    moduleResources
        [TfFile.parsed [(resourceKey, Val.dict [("t".toList, Val.list [Val.dict [("a".toList, Val.null)]])])],
         TfFile.malformed] =
      Except.ok ["t.a".toList] := by
  have h := c6_malformed_file_tolerated
    [(resourceKey, Val.dict [("t".toList, Val.list [Val.dict [("a".toList, Val.null)]])])]
    ["t.a".toList] rfl
  exact ⟨rfl, h.1⟩

/-!
### Variable extraction and rendering (C8)

`update_readme.py` lines 105-116: `config['variable']` is accepted as a
dict or as a list of single-key dicts; the declared type is
`var_config.get('type', 'any')` and the rendered bullet is
`- ` + backtick + name + backtick + ` (` + type + `)`.
-/

def varsFromDict : List (List Char × Val) → Except Unit (List (List Char × Val))
  | [] => Except.ok []
  | (n, vc) :: rest =>
    match pyGet vc typeKey (Val.str anyL) with
    | Except.error e => Except.error e
    | Except.ok ty =>
      match varsFromDict rest with
      | Except.error e => Except.error e
      | Except.ok more => Except.ok ((n, ty) :: more)

def varsFromList : List Val → Except Unit (List (List Char × Val))
  | [] => Except.ok []
  | Val.dict [] :: _ => Except.error ()
  | Val.dict ((n, vc) :: _) :: vs =>
    match pyGet vc typeKey (Val.str anyL) with
    | Except.error e => Except.error e
    | Except.ok ty =>
      match varsFromList vs with
      | Except.error e => Except.error e
      | Except.ok more => Except.ok ((n, ty) :: more)
  | _ :: vs => varsFromList vs

/-- Variable extraction from one parsed config: each extracted variable is
its declared name paired with the value of its `type` attribute, the string
`"any"` when the attribute is absent. -/
def extractVariables (config : List (List Char × Val)) :
    Except Unit (List (List Char × Val)) :=
  match lookup variableKey config with
  | none => Except.ok []
  | some (Val.dict kvs) => varsFromDict kvs
  | some (Val.list vs) => varsFromList vs
  | some _ => Except.ok []

/-- The rendered bullet for a variable whose declared type is the string
`t` (`update_readme.py` lines 109 and 116). -/
def fmtVar (n t : List Char) : List Char :=
  "- `".toList ++ n ++ "` (".toList ++ t ++ ")".toList

def resTitle : List Char := "**Resources:**\n".toList
def varTitle : List Char := "**Variables:**\n".toList
def outTitle : List Char := "**Outputs:**\n".toList

/-- One bullet group of a module section (`update_readme.py` lines
128-133): omitted when empty, otherwise a title line, the bullets joined by
newlines, and a blank line. -/
def bulletGroup (title : List Char) (bullets : List (List Char)) : List Char :=
  if bullets.isEmpty then [] else title ++ joinNL bullets ++ "\n\n".toList

/-- Claim C8: in both accepted shapes of `config['variable']`, a variable
is extracted as its declared name with its declared `type` attribute when
present and with `"any"` otherwise, and the rendered module section lists
it as the bullet `- ` + backtick + name + backtick + ` (` + type + `)`. -/
theorem c8_variable_type_annotation (n ty : List Char)
    (body : List (List Char × Val)) :
    (lookup typeKey body = some (Val.str ty) →
      extractVariables [(variableKey, Val.dict [(n, Val.dict body)])] =
        Except.ok [(n, Val.str ty)] ∧
      extractVariables [(variableKey, Val.list [Val.dict [(n, Val.dict body)]])] =
        Except.ok [(n, Val.str ty)]) ∧
    (lookup typeKey body = none →
      extractVariables [(variableKey, Val.dict [(n, Val.dict body)])] =
        Except.ok [(n, Val.str anyL)] ∧
      extractVariables [(variableKey, Val.list [Val.dict [(n, Val.dict body)]])] =
        Except.ok [(n, Val.str anyL)]) ∧
    bulletGroup varTitle [fmtVar n ty] =
      varTitle ++ "- `".toList ++ n ++ "` (".toList ++ ty ++ ")\n\n".toList := by
  refine ⟨?_, ?_, ?_⟩
  · intro h
    constructor
    · simp [extractVariables, lookup, varsFromDict, pyGet, h]
    · simp [extractVariables, lookup, varsFromList, pyGet, h]
  · intro h
    constructor
    · simp [extractVariables, lookup, varsFromDict, pyGet, h]
    · simp [extractVariables, lookup, varsFromList, pyGet, h]
  · simp [bulletGroup, joinNL, fmtVar]

/-- Witness for C8: a variable `region` of declared type `string` renders
as the bullet `- ` + backtick + `region` + backtick + ` (string)`. -/
theorem c8_variable_type_annotation_witness :
    extractVariables [(variableKey, Val.dict
        [("region".toList, Val.dict [(typeKey, Val.str "string".toList)])])] =
      Except.ok [("region".toList, Val.str "string".toList)] ∧
    fmtVar "region".toList "string".toList = "- `region` (string)".toList := by
  have h := c8_variable_type_annotation "region".toList "string".toList
    [(typeKey, Val.str "string".toList)]
  exact ⟨(h.1 rfl).1, rfl⟩

/-!
### Kubernetes manifest extraction and rendering (C4, C5)

`generate_diagrams.py` lines 96-103 turn each parsed manifest document that
is a mapping into the record
`{'kind': r.get('kind', 'Unknown'), 'name': r.get('metadata', {}).get('name', 'unnamed')}`
and skip non-mapping documents; `update_readme.py` lines 141-148 apply the
same `kind`/`metadata.name` defaults inline while rendering.
-/

def kindKey : List Char := "kind".toList
def metadataKey : List Char := "metadata".toList
def nameKey : List Char := "name".toList
def unknownL : List Char := "Unknown".toList
def unnamedL : List Char := "unnamed".toList

/-- The record extracted from one mapping document: `kind` defaulted to
`"Unknown"`, and `metadata.name` defaulted to `"unnamed"` (the default
covers both a missing `metadata` key, where `.get` falls back to `\x7b\x7d`,
and a missing `name` inside it); a non-dict `metadata` value raises
`AttributeError` on the second `.get`. -/
def recOfDoc (kvs : List (List Char × Val)) : Except Unit (Val × Val) :=
  match (lookup metadataKey kvs).getD (Val.dict []) with
  | Val.dict m =>
    Except.ok ((lookup kindKey kvs).getD (Val.str unknownL),
      (lookup nameKey m).getD (Val.str unnamedL))
  | _ => Except.error ()

def isMapping : Val → Bool
  | Val.dict _ => true
  | _ => false

/-- The record list extracted from the documents of one manifest file:
non-mapping documents contribute nothing. -/
def extractManifestRecords : List Val → Except Unit (List (Val × Val))
  | [] => Except.ok []
  | Val.dict kvs :: rest =>
    match recOfDoc kvs with
    | Except.error e => Except.error e
    | Except.ok r =>
      match extractManifestRecords rest with
      | Except.error e => Except.error e
      | Except.ok more => Except.ok (r :: more)
  | _ :: rest => extractManifestRecords rest

/-- The rendered bullet for a record whose kind and name are the strings
`k` and `n` (`update_readme.py` line 147, `generate_diagrams.py` line
218). -/
def k8sBullet (k n : List Char) : List Char :=
  "- `".toList ++ k ++ "/".toList ++ n ++ "`\n".toList

/-- Claim C5: a non-mapping document contributes nothing; a mapping
document's record takes its `kind` value with default `"Unknown"` and its
`metadata.name` value with default `"unnamed"`; each mapping document
prepends its record, in order; and the rendered bullet is
`kind/name` in backticks, so a missing kind renders `Unknown/<name>` and a
missing name renders `<kind>/unnamed`. -/
theorem c5_manifest_defaults (v : Val) (rest : List Val)
    (kvs m : List (List Char × Val)) (kk nn : List Char) :
    (isMapping v = false →
      extractManifestRecords (v :: rest) = extractManifestRecords rest) ∧
    (lookup metadataKey kvs = some (Val.dict m) →
      recOfDoc kvs = Except.ok ((lookup kindKey kvs).getD (Val.str unknownL),
        (lookup nameKey m).getD (Val.str unnamedL))) ∧
    (lookup metadataKey kvs = none →
      recOfDoc kvs = Except.ok ((lookup kindKey kvs).getD (Val.str unknownL),
        Val.str unnamedL)) ∧
    (∀ r, recOfDoc kvs = Except.ok r →
      ∀ more, extractManifestRecords rest = Except.ok more →
        extractManifestRecords (Val.dict kvs :: rest) = Except.ok (r :: more)) ∧
    k8sBullet unknownL nn = "- `Unknown/".toList ++ nn ++ "`\n".toList ∧
    k8sBullet kk unnamedL = "- `".toList ++ kk ++ "/unnamed`\n".toList := by
  refine ⟨?_, ?_, ?_, ?_, ?_, ?_⟩
  · intro hv
    cases v with
    | str s => rfl
    | dict kvs0 => simp [isMapping] at hv
    | list vs => rfl
    | null => rfl
  · intro hmeta
    simp [recOfDoc, hmeta]
  · intro hmeta
    simp [recOfDoc, hmeta, lookup]
  · intro r hr more hmore
    simp [extractManifestRecords, hr, hmore]
  · simp [k8sBullet, unknownL]
  · simp [k8sBullet, unnamedL]

/-- Witness for C5: the manifest documents `[null, \x7bmetadata: \x7bname:
"web"\x7d\x7d]` yield exactly one record `Unknown/web`, and its bullet. -/
theorem c5_manifest_defaults_witness :
    extractManifestRecords
        [Val.null, Val.dict [(metadataKey, Val.dict [(nameKey, Val.str "web".toList)])]] =
      Except.ok [(Val.str unknownL, Val.str "web".toList)] ∧
    k8sBullet unknownL "web".toList = "- `Unknown/web`\n".toList := by
  have h1 := c5_manifest_defaults Val.null
    [Val.dict [(metadataKey, Val.dict [(nameKey, Val.str "web".toList)])]]
    [(metadataKey, Val.dict [(nameKey, Val.str "web".toList)])]
    [(nameKey, Val.str "web".toList)] unknownL ("web".toList)
  have h2 := c5_manifest_defaults Val.null []
    [(metadataKey, Val.dict [(nameKey, Val.str "web".toList)])]
    [(nameKey, Val.str "web".toList)] unknownL ("web".toList)
  refine ⟨?_, ?_⟩
  · exact (h1.1 rfl).trans ((h2.2.2.2.1 _ (h2.2.1 rfl) [] rfl).trans rfl)
  · exact (h2.2.2.2.2.1).trans rfl

/-!
### The Kubernetes section of the README (C4)

`update_readme.py` `generate_kubernetes_documentation` (lines 137-150)
starts from `doc = "## 🚢 Kubernetes Resources\n\n"` unconditionally and
only then loops over the manifest files, so an empty manifest collection
still yields the section header.  `generate_diagrams.py` guards the whole
section with `if self.kubernetes_resources:` (lines 213-219).  Records are
taken here with string kind and name (the rendered view of §C5's
records).
-/

def k8sHdrL : List Char := "## 🚢 Kubernetes Resources\n\n".toList
def modHdrL : List Char := "## 🏗 Terraform Modules\n\n".toList

/-- The per-file block of the Kubernetes section: a heading for the file,
one bullet per record, and a blank line. -/
def k8sFileBlock (fr : List Char × List (List Char × List Char)) : List Char :=
  "### ".toList ++ fr.1 ++ "\n\n".toList ++
    (fr.2.map fun r => k8sBullet r.1 r.2).flatten ++ "\n".toList

/-- `update_readme.py` lines 137-150: the header is emitted
unconditionally. -/
def genK8sDocU (files : List (List Char × List (List Char × List Char))) : List Char :=
  k8sHdrL ++ (files.map k8sFileBlock).flatten

/-- `generate_diagrams.py` lines 212-219: the whole section is guarded by
the truthiness of the manifest collection. -/
def k8sSectionD (files : List (List Char × List (List Char × List Char))) : List Char :=
  if files.isEmpty then [] else k8sHdrL ++ (files.map k8sFileBlock).flatten

/-- A module section of `update_readme.py` lines 80-133, with the bullet
lists already built. -/
def modSectionU (name : List Char) (rs vs os : List (List Char)) : List Char :=
  "### ".toList ++ name ++ "\n\n".toList ++
    bulletGroup resTitle rs ++ bulletGroup varTitle vs ++ bulletGroup outTitle os

/-- `update_readme.py` lines 77-135: the Terraform-modules section. -/
def genModuleDocU
    (mods : List (List Char × (List (List Char) × List (List Char) × List (List Char)))) :
    List Char :=
  modHdrL ++ (mods.map fun m => modSectionU m.1 m.2.1 m.2.2.1 m.2.2.2).flatten

/-- Counterexample to claim C4 as stated: with zero manifest files,
`update_readme.py` still renders the Kubernetes section header, and the
README content written by that script contains it. -/
theorem c4_counterexample_header_always_present :
    genK8sDocU [] = k8sHdrL ∧
    newContent defaultTitle ("2024-01-01 00:00:00".toList)
        (genModuleDocU [] ++ genK8sDocU []) =
      (rstrip (beforeMarker defaultTitle) ++ ['\n', '\n'] ++
        headerBlock ("2024-01-01 00:00:00".toList) ++ modHdrL) ++ k8sHdrL := by
  constructor
  · rfl
  · rfl

/-- Claim C4 (amended): with zero manifest files the diagram script's
README contains no Kubernetes section (the guarded section is empty), while
the readme-update script always emits the `## 🚢 Kubernetes Resources`
header, with no file blocks under it. -/
theorem c4_k8s_header_guarded_only_in_diagrams :
    k8sSectionD [] = [] ∧ genK8sDocU [] = k8sHdrL := by
  exact ⟨rfl, rfl⟩

/-!
### The Mermaid diagram (C9, C10)

`generate_diagrams.py` `generate_mermaid_diagram` (lines 107-136).
Terraform node identifiers are
`f"\x7bmodule\x7d_\x7bresource\x7d".replace('.', '_').replace('-', '_')`
(line 120); Kubernetes node identifiers are
`f"k8s_\x7bkind\x7d_\x7bname\x7d".replace('-', '_')` (line 129) — note the
missing `.replace('.', '_')` there.  The module/record inputs are the
rendered (string) views of the accumulated state.
-/

/-- Terraform node identifier (line 120). -/
def tfNodeId (module resource : List Char) : List Char :=
  replaceChar '-' '_' (replaceChar '.' '_' (module ++ '_' :: resource))

/-- Kubernetes node identifier (line 129): only `-` is replaced. -/
def k8sNodeId (kind name : List Char) : List Char :=
  replaceChar '-' '_' ("k8s_".toList ++ kind ++ '_' :: name)

/-- The fixed first four lines of every generated diagram (lines 109-114). -/
def mermaidPre4 : List (List Char) :=
  ["```mermaid".toList, "graph TB".toList, "    subgraph Infrastructure".toList,
   "    A[GKE Cluster] --> B[VPC Network]".toList]

/-- The lines of one module's subgraph (lines 117-122). -/
def modLines (m : List Char × List (List Char)) : List (List Char) :=
  ("    subgraph ".toList ++ m.1) ::
    (m.2.map fun r => "        ".toList ++ tfNodeId m.1 r ++ '[' :: r ++ [']']) ++
    ["    end".toList]

/-- The lines of the Kubernetes subgraph (lines 124-131), present only when
the manifest collection is non-empty. -/
def k8sDiagLines (files : List (List Char × List (List Char × List Char))) :
    List (List Char) :=
  if files.isEmpty then []
  else
    "    subgraph Kubernetes".toList ::
      (files.map fun fr => fr.2.map fun r =>
        "        ".toList ++ k8sNodeId r.1 r.2 ++ '[' :: r.1 ++ '/' :: r.2 ++ [']']).flatten ++
      ["    end".toList]

/-- The full Mermaid diagram: preamble, one subgraph per module, the
optional Kubernetes subgraph, the closing `end` and the closing fence,
joined by newlines (lines 107-136). -/
def mermaidDiagram (mods : List (List Char × List (List Char)))
    (files : List (List Char × List (List Char × List Char))) : List Char :=
  joinNL (mermaidPre4 ++ (mods.map modLines).flatten ++ k8sDiagLines files ++
    ["end".toList, "```".toList])

set_option maxRecDepth 10000 in
/-- Counterexample to claim C9 as stated: a Kubernetes record whose name
contains `.` (names may be DNS subdomains) produces an emitted node
identifier that still contains `.`, because line 129 replaces only `-`. -/
theorem c9_counterexample_k8s_dot_kept :
    k8sNodeId "Deployment".toList "web.app".toList = "k8s_Deployment_web.app".toList ∧
    '.' ∈ k8sNodeId "Deployment".toList "web.app".toList ∧
    mermaidDiagram [] [("a.yaml".toList, [("Deployment".toList, "web.app".toList)])] =
      ("```mermaid\ngraph TB\n    subgraph Infrastructure\n" ++
       "    A[GKE Cluster] --> B[VPC Network]\n    subgraph Kubernetes\n" ++
       "        k8s_Deployment_web.app[Deployment/web.app]\n    end\nend\n```").toList := by
  refine ⟨by decide, by decide, by decide⟩

/-- Claim C9 (amended): every Terraform node identifier is free of both `.`
and `-`; Kubernetes node identifiers are only guaranteed free of `-` (a `.`
in the kind or name is kept). -/
theorem c9_node_id_sanitization (module resource kind name : List Char) :
    ((tfNodeId module resource).all fun c => c != '.' && c != '-') = true ∧
    ((k8sNodeId kind name).all fun c => c != '-') = true := by
  constructor
  · rw [List.all_eq_true]
    intro c hc
    have hdash : c ≠ '-' := by
      intro h
      subst h
      exact not_mem_replaceChar_self (by decide) _ hc
    have hdot : c ≠ '.' := by
      intro h
      subst h
      rcases mem_replaceChar hc with h1 | h2
      · exact absurd h1 (by decide)
      · exact not_mem_replaceChar_self (by decide) _ h2
    simp [bne_iff_ne, hdot, hdash]
  · rw [List.all_eq_true]
    intro c hc
    have hdash : c ≠ '-' := by
      intro h
      subst h
      exact not_mem_replaceChar_self (by decide) _ hc
    simp [bne_iff_ne, hdash]

/-- The fixed diagram preamble as one text block: fence line, `graph TB`,
the `Infrastructure` subgraph line, and the hardcoded
`A[GKE Cluster] --> B[VPC Network]` edge. -/
def mermaidPreText : List Char :=
  "```mermaid\ngraph TB\n    subgraph Infrastructure\n    A[GKE Cluster] --> B[VPC Network]\n".toList

theorem cons_append_two_ne_nil {α : Type} (A : List α) (x y : α) :
    A ++ [x, y] ≠ [] := by
  cases A <;> simp

/-- Claim C10: for every input — including zero modules and zero manifest
files — the generated Mermaid diagram starts with the fixed preamble,
independent of what was discovered. -/
theorem c10_fixed_preamble (mods : List (List Char × List (List Char)))
    (files : List (List Char × List (List Char × List Char))) :
    pre mermaidPreText (mermaidDiagram mods files) := by
  have hne : (mods.map modLines).flatten ++ k8sDiagLines files ++
      ["end".toList, "```".toList] ≠ [] := by
    have h := cons_append_two_ne_nil
      ((mods.map modLines).flatten ++ k8sDiagLines files) ("end".toList) ("```".toList)
    simp only [List.append_assoc] at h ⊢
    exact h
  obtain ⟨a, rest, hrest⟩ : ∃ a rest, (mods.map modLines).flatten ++
      k8sDiagLines files ++ ["end".toList, "```".toList] = a :: rest := by
    cases h : (mods.map modLines).flatten ++ k8sDiagLines files ++
        ["end".toList, "```".toList] with
    | nil => exact absurd h hne
    | cons a rest => exact ⟨a, rest, rfl⟩
  have hform : mermaidDiagram mods files =
      joinNL ("```mermaid".toList :: "graph TB".toList ::
        "    subgraph Infrastructure".toList ::
        "    A[GKE Cluster] --> B[VPC Network]".toList :: a :: rest) := by
    rw [mermaidDiagram]
    congr 1
    rw [← hrest]
    simp [mermaidPre4]
  rw [hform, joinNL_cons (by simp), joinNL_cons (by simp), joinNL_cons (by simp),
    joinNL_cons (by simp)]
  exact ⟨joinNL (a :: rest), rfl⟩

end Gke
